import Mathlib

/-!
# Verification of the Fake-News-Verifier content registry

Shallow embedding of the slice of the repository covered by the
specification:

* `src/contracts/ContentVerification.sol` — the on-chain content registry
  with its reputation counters, pause switch and owner gate.
* `src/frontend/src/utils/blockchain.ts` — the off-chain read path
  (`searchVerifiedNews`, `getPublisherContent`) and the similarity scoring.
* the hash utility module (`hexToBytes32` / `bytes32ToHex`).
* the verification portal's `handleSearch` control flow.

Solidity `uint256` values are modelled as `Nat`: the compiler used
(`^0.8.20`) reverts on overflow, and every counter in this contract is
bounded far below `2 ^ 256` along any execution considered here, so checked
arithmetic never trips and plain `Nat` arithmetic is faithful.
`bytes32` values and addresses are modelled as `Nat` (with `0` as the zero
hash / zero address); Solidity `string`s are Lean `String`s.
-/

namespace ContentVerification

/-- Solidity struct `Content` (ContentVerification.sol, lines 11-18).
The `exists` flag is part of the struct exactly as in the source. -/
structure Content where
  contentHash : Nat
  timestamp : Nat
  publisher : Nat
  contentType : String
  ipfsMetadata : String
  «exists» : Bool
deriving Repr, DecidableEq

/-- The default value a Solidity mapping returns for an absent key:
all fields zero / empty / false. -/
def emptyContent : Content :=
  { contentHash := 0, timestamp := 0, publisher := 0
    contentType := "", ipfsMetadata := "", «exists» := false }

/-- Solidity struct `PublisherReputation` (lines 21-25). -/
structure PublisherReputation where
  totalRegistrations : Nat
  verificationCount : Nat
  reputationScore : Nat
deriving Repr, DecidableEq

/-- Default mapping value for an unreferenced publisher. -/
def emptyReputation : PublisherReputation :=
  { totalRegistrations := 0, verificationCount := 0, reputationScore := 0 }

/-- The contract storage: the three mappings and the scalar state
variables (lines 27-35).  Mappings are total functions with the Solidity
default for absent keys. -/
structure State where
  contentRegistry : Nat → Content
  publisherContent : Nat → List Nat
  publisherReputations : Nat → PublisherReputation
  totalRegistrations : Nat
  owner : Nat
  paused : Bool

/-- The constructor (lines 76-79): `owner = msg.sender; paused = false`,
all mappings at their defaults. -/
def initialState (deployer : Nat) : State :=
  { contentRegistry := fun _ => emptyContent
    publisherContent := fun _ => []
    publisherReputations := fun _ => emptyReputation
    totalRegistrations := 0
    owner := deployer
    paused := false }

/-- Modifier `validContentType` (lines 66-74).  The source compares
`keccak256` images of the byte strings; `keccak256` digests of equal byte
strings are equal and the contract's design treats the digest as
collision-free, so the comparison is string equality. -/
def validContentType (t : String) : Bool :=
  t == "article" || t == "image" || t == "video"

/-- `registerContent` (lines 87-123).  Modifiers run in declaration order
(`whenNotPaused`, then `validContentType`), then the body's `require`
statements in source order.  A revert is an `Except.error` carrying the
exact `require` message. -/
def registerContent (s : State) (sender blockTimestamp contentHash : Nat)
    (contentType ipfsMetadata : String) : Except String State :=
  if s.paused then .error "Contract is paused"
  else if !validContentType contentType then .error "Invalid content type"
  else if contentHash == 0 then .error "Content hash cannot be empty"
  else if (s.contentRegistry contentHash).exists then .error "Content already registered"
  else if ipfsMetadata == "" then .error "IPFS metadata required"
  else .ok
    { s with
      contentRegistry := fun h =>
        if h = contentHash then
          { contentHash := contentHash, timestamp := blockTimestamp
            publisher := sender, contentType := contentType
            ipfsMetadata := ipfsMetadata, «exists» := true }
        else s.contentRegistry h
      publisherContent := fun a =>
        if a = sender then s.publisherContent a ++ [contentHash]
        else s.publisherContent a
      publisherReputations := fun a =>
        if a = sender then
          { s.publisherReputations a with
            totalRegistrations := (s.publisherReputations a).totalRegistrations + 1
            reputationScore := (s.publisherReputations a).reputationScore + 10 }
        else s.publisherReputations a
      totalRegistrations := s.totalRegistrations + 1 }

/-- The tuple `verifyContent` returns (lines 138-144). -/
structure VerifyReturn where
  «exists» : Bool
  publisher : Nat
  timestamp : Nat
  contentType : String
  ipfsMetadata : String
deriving Repr, DecidableEq

/-- `verifyContent` (lines 134-162).  Reads the record; when it exists,
bumps the owning publisher's `verificationCount` by 1 and
`reputationScore` by 5; returns the record's fields either way.  The
`sender` only feeds the emitted event and the state does not depend on
it.  Never reverts. -/
def verifyContent (s : State) (sender contentHash : Nat) : State × VerifyReturn :=
  let content := s.contentRegistry contentHash
  let s' :=
    if content.exists then
      { s with
        publisherReputations := fun a =>
          if a = content.publisher then
            { s.publisherReputations a with
              verificationCount := (s.publisherReputations a).verificationCount + 1
              reputationScore := (s.publisherReputations a).reputationScore + 5 }
          else s.publisherReputations a }
    else s
  (s', { «exists» := content.exists, publisher := content.publisher
         timestamp := content.timestamp, contentType := content.contentType
         ipfsMetadata := content.ipfsMetadata })

/-- `getPublisherContent` (lines 169-173), a view function. -/
def getPublisherContent (s : State) (p : Nat) : List Nat :=
  s.publisherContent p

/-- `getPublisherReputation` (lines 182-199), a view function. -/
def getPublisherReputation (s : State) (p : Nat) : PublisherReputation :=
  s.publisherReputations p

/-- `getTotalRegistrations` (lines 205-207), a view function. -/
def getTotalRegistrations (s : State) : Nat :=
  s.totalRegistrations

/-- `getContentDetails` (lines 214-218), a view function. -/
def getContentDetails (s : State) (contentHash : Nat) : Content :=
  s.contentRegistry contentHash

/-- `pause` (lines 223-226), gated by `onlyOwner`. -/
def pause (s : State) (sender : Nat) : Except String State :=
  if sender = s.owner then .ok { s with paused := true }
  else .error "Only owner can call this function"

/-- `unpause` (lines 231-234), gated by `onlyOwner`. -/
def unpause (s : State) (sender : Nat) : Except String State :=
  if sender = s.owner then .ok { s with paused := false }
  else .error "Only owner can call this function"

/-- The external state-changing entry points of the contract. -/
inductive Op where
  | register (sender blockTimestamp contentHash : Nat) (contentType ipfsMetadata : String)
  | verify (sender contentHash : Nat)
  | pauseOp (sender : Nat)
  | unpauseOp (sender : Nat)

/-- One transaction: a reverted call leaves the state unchanged. -/
def applyOp (s : State) : Op → State
  | .register sender ts h ct im =>
      match registerContent s sender ts h ct im with
      | .ok s' => s'
      | .error _ => s
  | .verify sender h => (verifyContent s sender h).1
  | .pauseOp sender =>
      match pause s sender with
      | .ok s' => s'
      | .error _ => s
  | .unpauseOp sender =>
      match unpause s sender with
      | .ok s' => s'
      | .error _ => s

/-- Run a sequence of transactions. -/
def execTrace (s : State) : List Op → State
  | [] => s
  | op :: ops => execTrace (applyOp s op) ops

/-- A state is reachable when some transaction sequence from some deployed
initial state produces it. -/
def Reachable (s : State) : Prop :=
  ∃ deployer ops, s = execTrace (initialState deployer) ops

/-- The state a successful `registerContent` produces, written out. -/
def registeredState (s : State) (sender blockTimestamp contentHash : Nat)
    (contentType ipfsMetadata : String) : State :=
  { s with
    contentRegistry := fun h =>
      if h = contentHash then
        { contentHash := contentHash, timestamp := blockTimestamp
          publisher := sender, contentType := contentType
          ipfsMetadata := ipfsMetadata, «exists» := true }
      else s.contentRegistry h
    publisherContent := fun a =>
      if a = sender then s.publisherContent a ++ [contentHash]
      else s.publisherContent a
    publisherReputations := fun a =>
      if a = sender then
        { s.publisherReputations a with
          totalRegistrations := (s.publisherReputations a).totalRegistrations + 1
          reputationScore := (s.publisherReputations a).reputationScore + 10 }
      else s.publisherReputations a
    totalRegistrations := s.totalRegistrations + 1 }

/-- Witness state: one successful registration on a fresh deployment. -/
def wState : State :=
  applyOp (initialState 0) (.register 1 5 42 "article" "ipfs://Qm123")

end ContentVerification
namespace FrontendSearch

/-!
Model of the off-chain read path in `src/frontend/src/utils/blockchain.ts`.
JavaScript strings are modelled as `List Char` (`JStr`); the string
operations used by this code (`toLowerCase`, `trim`, `includes`,
`split(/\s+/)`, `.length`) are reproduced below.  `Char.toLower` and
`Char.isWhitespace` agree with the JavaScript operations on the ASCII
range these functions are applied to; `.length` counts characters, which
coincides with JavaScript's UTF-16 length on that range.
-/

abbrev JStr := List Char

/-- `s.toLowerCase()`. -/
def jsToLower (s : JStr) : JStr := s.map Char.toLower

/-- `s.trim()`: strip leading and trailing whitespace. -/
def jsTrim (s : JStr) : JStr :=
  ((s.dropWhile Char.isWhitespace).reverse.dropWhile Char.isWhitespace).reverse

/-- `haystack.includes(needle)`: substring test; an empty needle is always
contained. -/
def jsIncludes : JStr → JStr → Bool
  | [], needle => needle.isEmpty
  | c :: t, needle => needle.isPrefixOf (c :: t) || jsIncludes t needle

/-- `s.split(/\s+/)`: split at maximal whitespace runs.  A leading run
yields a leading empty token and a trailing run a trailing empty token,
exactly as in JavaScript. -/
def jsSplitWs (cs : JStr) : List JStr :=
  match h : cs.dropWhile (fun c => !c.isWhitespace) with
  | [] => [cs.takeWhile (fun c => !c.isWhitespace)]
  | _ :: t =>
      cs.takeWhile (fun c => !c.isWhitespace) ::
        jsSplitWs (t.dropWhile Char.isWhitespace)
termination_by cs.length
decreasing_by
  have h1 : (cs.dropWhile (fun c => !c.isWhitespace)).length ≤ cs.length :=
    (List.dropWhile_sublist (p := fun c => !c.isWhitespace) (l := cs)).length_le
  rw [h] at h1
  have h2 : (t.dropWhile Char.isWhitespace).length ≤ t.length :=
    (List.dropWhile_sublist (p := Char.isWhitespace) (l := t)).length_le
  simp at h1
  omega

/-- `⌊log2⌋` by structural recursion on a fuel bound, so that concrete
values reduce inside the kernel.  `log2Fuel fuel n` equals `Nat.log2 n`
whenever `n < 2 ^ fuel` (proved below as `log2Fuel_eq_log2`). -/
def log2Fuel : ℕ → ℕ → ℕ
  | 0, _ => 0
  | fuel + 1, n => if n < 2 then 0 else log2Fuel fuel (n / 2) + 1

/-- `⌊log2 n⌋` for every `n < 2 ^ 1100` — far beyond every argument the
similarity pipeline can produce from JavaScript values (array lengths are
below `2 ^ 32`, and the scaled intermediates stay below `2 ^ 200`). -/
def jsLog2 (n : ℕ) : ℕ := log2Fuel 1100 n

/-- Round `a / b` to the nearest integer, ties to even. -/
def rndHalfEven (a b : ℕ) : ℕ :=
  if b < 2 * (a % b) then a / b + 1
  else if 2 * (a % b) < b then a / b
  else a / b + a / b % 2

/-- IEEE-754 binary64 rounding (round to nearest, ties to even) of the
rational `num / den`, returned as a dyadic pair `(s, k)` standing for the
value `s / 2 ^ k`: the significand is normalised to 53 bits
(`2 ^ 52 ≤ s < 2 ^ 53` plus the carry case) and rounded half-to-even.
The exponent is not range-limited, so this agrees with binary64 exactly
for values inside binary64's normal range — which covers every quantity
the similarity pipeline computes (all lie in `[2 ^ -64, 100]`). -/
def floatRound (num den : ℕ) : ℕ × ℕ :=
  if num = 0 ∨ den = 0 then (0, 0)
  else
    let k₀ : ℤ := 52 - ((jsLog2 num : ℤ) - (jsLog2 den : ℤ))
    let q₀ : ℕ := if 0 ≤ k₀ then num * 2 ^ k₀.toNat / den else num / (den * 2 ^ (-k₀).toNat)
    let k : ℤ := if q₀ < 2 ^ 52 then k₀ + 1 else k₀
    let s : ℕ :=
      if 0 ≤ k then rndHalfEven (num * 2 ^ k.toNat) den
      else rndHalfEven num (den * 2 ^ (-k).toNat)
    if 0 ≤ k then (s, k.toNat) else (s * 2 ^ (-k).toNat, 0)

/-- `Math.round` of the exact value `s / 2 ^ k` of a nonnegative double:
the nearest integer, ties toward `+∞`, i.e. `⌊s / 2 ^ k + 1 / 2⌋`.  The
ECMAScript specification defines `Math.round` on the Number's exact
value (it is not `⌊x + 0.5⌋` computed in doubles). -/
def jsMathRoundDyadic (s k : ℕ) : ℕ := (2 * s + 2 ^ k) / 2 ^ (k + 1)

/-- `Math.round((m / t) * 100)` exactly as JavaScript evaluates it on the
integers `m`, `t`: both are exact doubles (JavaScript array lengths are
below `2 ^ 32 < 2 ^ 53`), the division rounds once to binary64, the
multiplication by 100 rounds once more, and `Math.round` picks the
nearest integer of the resulting double's exact value.  This differs
from the exact rational `round(100·m/t)` at reachable inputs: at
`m = 23`, `t = 40` the doubles yield 57 where the exact value 57.5 would
round to 58. -/
def jsRoundRatio100 (m t : ℕ) : ℕ :=
  let r1 := floatRound m t
  let r2 := floatRound (r1.1 * 100) (2 ^ r1.2)
  jsMathRoundDyadic r2.1 r2.2

/-- One parsed `ContentRegistered` event, as returned by
`getRecentRegistrations`. -/
structure Registration where
  contentHash : JStr
  publisher : JStr
  timestamp : Nat
  contentType : JStr
  ipfsMetadata : JStr
deriving Repr, DecidableEq

/-- The JSON blob fetched from IPFS, as `searchVerifiedNews` reads it.
A missing optional field and an empty string behave identically under the
`||` fallbacks and the `!metadata.title` guard, so optional fields are
plain strings with `[]` for absent. -/
structure IpfsMeta where
  title : JStr
  source : JStr
  url : JStr
  publishedAt : JStr
  reliability : JStr
deriving Repr, DecidableEq

/-- One entry of the `matches` array `searchVerifiedNews` builds. -/
structure SearchMatch where
  title : JStr
  source : JStr
  url : JStr
  publishedAt : JStr
  contentHash : JStr
  ipfsMetadata : JStr
  reliability : JStr
  similarity : Nat
deriving Repr, DecidableEq

/-- The return shape of `searchVerifiedNews`. -/
structure SearchOutcome where
  found : Bool
  «matches» : List SearchMatch
deriving Repr, DecidableEq

/-- JavaScript `a || b` for strings: `b` when `a` is falsy (empty). -/
def jsOr (s fallback : JStr) : JStr := if s.isEmpty then fallback else s

/-- The object pushed into `matches` (blockchain.ts, lines 588-597). -/
def mkMatch (reg : Registration) (meta : IpfsMeta) (similarity : Nat) : SearchMatch :=
  { title := meta.title
    source := jsOr meta.source "Unknown".toList
    url := jsOr meta.url []
    publishedAt := jsOr meta.publishedAt []
    contentHash := reg.contentHash
    ipfsMetadata := reg.ipfsMetadata
    reliability := jsOr meta.reliability "verified".toList
    similarity := similarity }

/-- The similarity computation of `searchVerifiedNews` (lines 570-585):
`searchLower` is the lowercased, trimmed query; `titleLower` the lowercased
(not trimmed) title. -/
def similarityOf (searchLower titleLower : JStr) : Nat :=
  if titleLower = searchLower then 100
  else if jsIncludes titleLower searchLower || jsIncludes searchLower titleLower then 80
  else
    let searchWords := (jsSplitWs searchLower).filter (fun w => decide (3 < w.length))
    let titleWords := jsSplitWs titleLower
    let matchedWords := searchWords.filter
      (fun sw => titleWords.any (fun tw => jsIncludes tw sw || jsIncludes sw tw))
    if 0 < searchWords.length then jsRoundRatio100 matchedWords.length searchWords.length
    else 0

/-- JavaScript's `Array.prototype.sort` is stable; with the comparator
`(a, b) => b.similarity - a.similarity` it orders by descending
similarity keeping the original order of equal scores.  Stable insertion:
`x` goes in front of the first element whose score it weakly exceeds. -/
def insertDesc (x : SearchMatch) : List SearchMatch → List SearchMatch
  | [] => [x]
  | y :: ys => if y.similarity ≤ x.similarity then x :: y :: ys else y :: insertDesc x ys

/-- Stable sort by descending `similarity`. -/
def sortDesc : List SearchMatch → List SearchMatch
  | [] => []
  | x :: xs => insertDesc x (sortDesc xs)

/-- The body of `searchVerifiedNews` (lines 534-607) after its awaited
inputs resolve: `registrations` is what `getRecentRegistrations(20)`
returned and `fetch` is `fetchIPFSWithCache`, which yields `none` on any
fetch failure.  Filters to articles with metadata, scores each candidate
with a retrievable, non-empty title, keeps scores ≥ 50, sorts by
descending similarity and returns the top 10; `found` reflects whether any
candidate scored ≥ 50. -/
def searchVerifiedNewsBody (fetch : JStr → Option IpfsMeta)
    (registrations : List Registration) (searchQuery : JStr) : SearchOutcome :=
  let searchLower := jsTrim (jsToLower searchQuery)
  let articleRegs := registrations.filter
    (fun reg => reg.contentType == "article".toList && !reg.ipfsMetadata.isEmpty)
  let metadataResults := articleRegs.map (fun reg => (reg, fetch reg.ipfsMetadata))
  let matchList := metadataResults.foldl
    (fun acc rm =>
      match rm.2 with
      | none => acc
      | some meta =>
        if meta.title.isEmpty then acc
        else
          let titleLower := jsToLower meta.title
          let similarity := similarityOf searchLower titleLower
          if 50 ≤ similarity then acc ++ [mkMatch rm.1 meta similarity] else acc)
    []
  { found := decide (0 < matchList.length), «matches» := (sortDesc matchList).take 10 }

/-- `searchVerifiedNews` with its surrounding `try/catch` (lines 521-612):
the awaited `getRecentRegistrations` outcome is an `Except`; any raised
error is caught and turned into `found = false` with no matches. -/
def searchVerifiedNews (recentRegistrations : Except String (List Registration))
    (fetch : JStr → Option IpfsMeta) (searchQuery : JStr) : SearchOutcome :=
  match recentRegistrations with
  | .error _ => { found := false, «matches» := [] }
  | .ok regs => searchVerifiedNewsBody fetch regs searchQuery

/-- The all-zero hash the loop in `getPublisherContent` stops on. -/
def zeroHash : JStr :=
  "0x0000000000000000000000000000000000000000000000000000000000000000".toList

/-- The index loop of `getPublisherContent` (lines 265-277): reads
`publisherContent(addr, index)` for `index = 0, 1, ...`, pushing truthy,
non-zero hashes; the Solidity array getter reverts past the end, which the
inner `catch` turns into a `break`, so the loop walks the on-chain list. -/
def collectHashes : List JStr → List JStr
  | [] => []
  | h :: t => if !h.isEmpty && h != zeroHash then h :: collectHashes t else []

/-- `getPublisherContent` (lines 256-284): `none` for the contract models
`getContract` failing (no address configured), in which case the function
returns `[]`; otherwise the loop result. -/
def getPublisherContent (contract : Option (JStr → List JStr))
    (publisherAddress : JStr) : List JStr :=
  match contract with
  | none => []
  | some publisherContentOf => collectHashes (publisherContentOf publisherAddress)

/-- The tiered similarity policy in the specification's wording, amended
on two points the code forces: the title is lowercased but not trimmed
(only the query is trimmed), and the tier-3 score is
`Math.round((matched / considered) * 100)` evaluated in binary64 double
precision (`jsRoundRatio100`), which at some inputs differs by one from
the exact rational rounding. -/
def specTieredScore (searchQuery title : JStr) : Nat :=
  let q := jsTrim (jsToLower searchQuery)
  let t := jsToLower title
  if t = q then 100
  else if jsIncludes t q || jsIncludes q t then 80
  else
    let qWords := (jsSplitWs q).filter (fun w => decide (3 < w.length))
    let matched := qWords.filter
      (fun sw => (jsSplitWs t).any (fun tw => jsIncludes tw sw || jsIncludes sw tw))
    if qWords.length = 0 then 0
    else jsRoundRatio100 matched.length qWords.length

/-- The candidate list the specification describes: every recent article
registration with retrievable metadata carrying a non-empty title, scored
by the tiered policy, kept when the score reaches 50. -/
def specCandidates (fetch : JStr → Option IpfsMeta)
    (registrations : List Registration) (searchQuery : JStr) : List SearchMatch :=
  (registrations.filter
      (fun reg => reg.contentType == "article".toList && !reg.ipfsMetadata.isEmpty)).filterMap
    (fun reg =>
      match fetch reg.ipfsMetadata with
      | none => none
      | some meta =>
        if meta.title.isEmpty then none
        else
          let sc := specTieredScore searchQuery meta.title
          if 50 ≤ sc then some (mkMatch reg meta sc) else none)

/-- A one-entry recent window used for concrete evaluations. -/
def oneReg : Registration :=
  { contentHash := "0xabc".toList, publisher := "0xpub".toList, timestamp := 0
    contentType := "article".toList, ipfsMetadata := "QmA".toList }

/-- A metadata store where locator `QmA` resolves to the title
`"hello "` — note the trailing space — and nothing else resolves. -/
def oneFetch : JStr → Option IpfsMeta := fun s =>
  if s = "QmA".toList then
    some { title := "hello ".toList, source := [], url := []
           publishedAt := [], reliability := [] }
  else none

end FrontendSearch

namespace VerificationPortal

/-!
Model of `handleSearch` in the verification portal page
(`VerificationPortal`, the `blockchain.ts` companion component,
lines 740-864): the decision structure that chooses between the exact
blockchain hit and the fuzzy search, for both the text and the image
path.  The awaited results (`verifyContent`, `searchVerifiedNews`, AI
analysis) are inputs; the state setters become record fields.
-/

open FrontendSearch (JStr SearchOutcome SearchMatch)

/-- The shape `verifyContent` (blockchain.ts, lines 153-201) resolves to. -/
structure ExactMatchResult where
  «exists» : Bool
  publisher : JStr
  timestamp : Nat
  contentType : JStr
  ipfsMetadata : JStr
deriving Repr, DecidableEq

/-- The `BlockchainExactMatch` object stored by `setExactBlockchainMatch`
(and `setImageBlockchainMatch`). -/
structure BlockchainExactMatch where
  found : Bool
  contentHash : JStr
  publisher : JStr
  timestamp : Nat
  contentType : JStr
  ipfsMetadata : JStr
deriving Repr, DecidableEq

/-- What a run of `handleSearch` ends up having done. -/
structure SearchRun where
  exactBlockchainMatch : Option BlockchainExactMatch
  ranFuzzySearch : Bool
  searchResults : Option (List SearchMatch)
deriving Repr, DecidableEq

/-- Text branch of `handleSearch` (lines 815-857): exact lookup first; on
a hit, record the match and skip the fuzzy search (only AI analysis runs
in addition); on a miss, run `searchVerifiedNews`. -/
def handleSearchText (bytes32Hash : JStr) (exactMatch : ExactMatchResult)
    (fuzzy : JStr → SearchOutcome) (searchQuery : JStr) : SearchRun :=
  if exactMatch.exists then
    { exactBlockchainMatch := some
        { found := true, contentHash := bytes32Hash
          publisher := exactMatch.publisher, timestamp := exactMatch.timestamp
          contentType := exactMatch.contentType, ipfsMetadata := exactMatch.ipfsMetadata }
      ranFuzzySearch := false
      searchResults := none }
  else
    { exactBlockchainMatch := none
      ranFuzzySearch := true
      searchResults := some (fuzzy searchQuery).«matches» }

/-- Image branch of `handleSearch` (lines 742-800): exact lookup of the
file hash first; on a hit, record the match and return before any other
work; on a miss, AI analysis runs, and the fuzzy search runs only when it
extracted news text from the image. -/
def handleSearchImage (bytes32Hash : JStr) (blockchainResult : ExactMatchResult)
    (newsContent : JStr) (fuzzy : JStr → SearchOutcome) : SearchRun :=
  if blockchainResult.exists then
    { exactBlockchainMatch := some
        { found := true, contentHash := bytes32Hash
          publisher := blockchainResult.publisher, timestamp := blockchainResult.timestamp
          contentType := blockchainResult.contentType
          ipfsMetadata := blockchainResult.ipfsMetadata }
      ranFuzzySearch := false
      searchResults := none }
  else
    { exactBlockchainMatch := none
      ranFuzzySearch := !newsContent.isEmpty
      searchResults :=
        if newsContent.isEmpty then none else some (fuzzy newsContent).«matches» }

/-- A concrete exact-lookup hit used for evaluations. -/
def hitResult : ExactMatchResult :=
  { «exists» := true, publisher := "0xp".toList, timestamp := 7
    contentType := "article".toList, ipfsMetadata := "QmA".toList }

/-- A fuzzy engine that finds nothing, used for evaluations. -/
def noFuzzy : JStr → SearchOutcome := fun _ => { found := false, «matches» := [] }

end VerificationPortal

namespace HashUtils

/-!
Model of the hash utility module (`hexToBytes32` / `bytes32ToHex`,
source lines 231-247 of the module).  Strings are `List Char` as above.
-/

open FrontendSearch (JStr)

/-- `s.padStart(targetLength, c)`: left-pad to `targetLength`; a string
already that long is returned unchanged. -/
def jsPadStart (s : JStr) (targetLength : Nat) (c : Char) : JStr :=
  List.replicate (targetLength - s.length) c ++ s

/-- `hexToBytes32`: strip an optional `0x`, left-pad with `'0'` to 64
characters, truncate beyond 64 (`slice(0, 64)`), and put `0x` back. -/
def hexToBytes32 (hex : JStr) : JStr :=
  let cleanHex := if "0x".toList.isPrefixOf hex then hex.drop 2 else hex
  let paddedHex := (jsPadStart cleanHex 64 '0').take 64
  "0x".toList ++ paddedHex

/-- `bytes32ToHex`: strip an optional `0x`. -/
def bytes32ToHex (bytes32 : JStr) : JStr :=
  if "0x".toList.isPrefixOf bytes32 then bytes32.drop 2 else bytes32

end HashUtils
namespace ContentVerification

/-- Inversion principle for `registerContent`: the call returns `ok`
precisely when every `require` passes, and then the new state is
`registeredState`. -/
theorem registerContent_ok_iff (s : State) (sender ts ch : Nat) (ct im : String)
    (s' : State) :
    registerContent s sender ts ch ct im = .ok s' ↔
      (s.paused = false ∧ validContentType ct = true ∧ ch ≠ 0 ∧
       (s.contentRegistry ch).exists = false ∧ im ≠ "" ∧
       s' = registeredState s sender ts ch ct im) := by
  unfold registerContent registeredState
  by_cases hp : s.paused <;> simp [hp]
  by_cases hct : validContentType ct <;> simp [hct]
  by_cases hch : ch = 0 <;> simp [hch]
  by_cases hex : (s.contentRegistry ch).exists <;> simp [hex]
  by_cases him : im = "" <;> simp [him]
  exact eq_comm

/-- One transaction never changes an already-registered record:
`registerContent` rejects the occupied key and the other entry points do
not write the registry at all. -/
theorem registered_persists_step (s : State) (op : Op) (f : Nat)
    (h : (s.contentRegistry f).exists = true) :
    (applyOp s op).contentRegistry f = s.contentRegistry f := by
  cases op with
  | register sender ts ch ct im =>
    simp only [applyOp]
    split
    · next s' heq =>
      rw [registerContent_ok_iff] at heq
      obtain ⟨-, -, -, hex, -, rfl⟩ := heq
      simp only [registeredState]
      by_cases hf : f = ch
      · subst hf; rw [h] at hex; cases hex
      · simp [hf]
    · rfl
  | verify sender ch =>
    simp only [applyOp, verifyContent]
    split <;> rfl
  | pauseOp sender =>
    simp only [applyOp, pause]
    split
    · next s' heq =>
      split at heq
      · cases heq; rfl
      · cases heq
    · rfl
  | unpauseOp sender =>
    simp only [applyOp, unpause]
    split
    · next s' heq =>
      split at heq
      · cases heq; rfl
      · cases heq
    · rfl

/-- Persistence lifted to whole transaction sequences. -/
theorem registered_persists_trace (s : State) (ops : List Op) (f : Nat)
    (h : (s.contentRegistry f).exists = true) :
    (execTrace s ops).contentRegistry f = s.contentRegistry f := by
  induction ops generalizing s with
  | nil => rfl
  | cons op ops ih =>
    have hstep := registered_persists_step s op f h
    have h' : ((applyOp s op).contentRegistry f).exists = true := by
      rw [hstep]; exact h
    calc (execTrace s (op :: ops)).contentRegistry f
        = (execTrace (applyOp s op) ops).contentRegistry f := rfl
      _ = (applyOp s op).contentRegistry f := ih (applyOp s op) h'
      _ = s.contentRegistry f := hstep

/-- A registry slot is either empty (all default fields) or carries
`exists = true`: no transaction ever writes a record with a cleared flag. -/
theorem registry_exists_or_empty (s : State) (hs : Reachable s) (f : Nat) :
    (s.contentRegistry f).exists = true ∨ s.contentRegistry f = emptyContent := by
  obtain ⟨deployer, ops, rfl⟩ := hs
  suffices h : ∀ (s₀ : State), (∀ g, ((s₀.contentRegistry g).exists = true ∨
      s₀.contentRegistry g = emptyContent)) →
      ((execTrace s₀ ops).contentRegistry f).exists = true ∨
        (execTrace s₀ ops).contentRegistry f = emptyContent by
    exact h (initialState deployer) (fun _ => Or.inr rfl)
  induction ops with
  | nil => intro s₀ h0; exact h0 f
  | cons op ops ih =>
    intro s₀ h0
    refine ih (applyOp s₀ op) (fun g => ?_)
    cases op with
    | register sender ts ch ct im =>
      simp only [applyOp]
      split
      · next s' heq =>
        rw [registerContent_ok_iff] at heq
        obtain ⟨-, -, -, -, -, rfl⟩ := heq
        simp only [registeredState]
        by_cases hg : g = ch
        · subst hg; simp
        · simpa [hg] using h0 g
      · exact h0 g
    | verify sender ch =>
      simp only [applyOp, verifyContent]
      split <;> exact h0 g
    | pauseOp sender =>
      simp only [applyOp, pause]
      split
      · next s' heq =>
        split at heq
        · cases heq; exact h0 g
        · cases heq
      · exact h0 g
    | unpauseOp sender =>
      simp only [applyOp, unpause]
      split
      · next s' heq =>
        split at heq
        · cases heq; exact h0 g
        · cases heq
      · exact h0 g

/-- C2: a successful Register by publisher P bumps P's
`totalRegistrations` by exactly 1 and `reputationScore` by exactly 10
(leaving `verificationCount` alone), bumps the global
`totalRegistrations` counter by exactly 1, appends the fingerprint to P's
`publisherContent` list, and stores a record carrying the caller as
publisher together with the given category and metadata pointer. -/
theorem C2_register_effects (s : State) (sender ts f : Nat) (ct im : String)
    (s' : State) (h : registerContent s sender ts f ct im = .ok s') :
    (s'.publisherReputations sender).totalRegistrations
        = (s.publisherReputations sender).totalRegistrations + 1 ∧
    (s'.publisherReputations sender).reputationScore
        = (s.publisherReputations sender).reputationScore + 10 ∧
    (s'.publisherReputations sender).verificationCount
        = (s.publisherReputations sender).verificationCount ∧
    s'.totalRegistrations = s.totalRegistrations + 1 ∧
    s'.publisherContent sender = s.publisherContent sender ++ [f] ∧
    s'.contentRegistry f =
      { contentHash := f, timestamp := ts, publisher := sender
        contentType := ct, ipfsMetadata := im, «exists» := true } := by
  rw [registerContent_ok_iff] at h
  obtain ⟨-, -, -, -, -, rfl⟩ := h
  simp [registeredState]


theorem C2_register_effects_witness :
    (wState.publisherReputations 1).totalRegistrations
        = (((initialState 0)).publisherReputations 1).totalRegistrations + 1 ∧
    (wState.publisherReputations 1).reputationScore
        = (((initialState 0)).publisherReputations 1).reputationScore + 10 ∧
    (wState.publisherReputations 1).verificationCount
        = (((initialState 0)).publisherReputations 1).verificationCount ∧
    wState.totalRegistrations = (initialState 0).totalRegistrations + 1 ∧
    wState.publisherContent 1 = (initialState 0).publisherContent 1 ++ [42] ∧
    wState.contentRegistry 42 =
      { contentHash := 42, timestamp := 5, publisher := 1
        contentType := "article", ipfsMetadata := "ipfs://Qm123", «exists» := true } :=
  C2_register_effects (initialState 0) 1 5 42 "article" "ipfs://Qm123" wState rfl

/-- C3: Verify on a registered fingerprint returns `exists = true` with
the stored record's fields, bumps the owning publisher's
`verificationCount` by exactly 1 and `reputationScore` by exactly 5,
leaves that publisher's `totalRegistrations` and everyone else's
reputation untouched, and changes nothing else — in particular the
registry entry survives unchanged, so the same holds on every later
call. -/
theorem C3_verify_hit_effects (s : State) (sender f a : Nat)
    (h : (s.contentRegistry f).exists = true)
    (ha : a ≠ (s.contentRegistry f).publisher) :
    (verifyContent s sender f).2 =
      { «exists» := true
        publisher := (s.contentRegistry f).publisher
        timestamp := (s.contentRegistry f).timestamp
        contentType := (s.contentRegistry f).contentType
        ipfsMetadata := (s.contentRegistry f).ipfsMetadata } ∧
    (((verifyContent s sender f).1).publisherReputations
        (s.contentRegistry f).publisher).verificationCount
      = (s.publisherReputations (s.contentRegistry f).publisher).verificationCount + 1 ∧
    (((verifyContent s sender f).1).publisherReputations
        (s.contentRegistry f).publisher).reputationScore
      = (s.publisherReputations (s.contentRegistry f).publisher).reputationScore + 5 ∧
    (((verifyContent s sender f).1).publisherReputations
        (s.contentRegistry f).publisher).totalRegistrations
      = (s.publisherReputations (s.contentRegistry f).publisher).totalRegistrations ∧
    ((verifyContent s sender f).1).publisherReputations a = s.publisherReputations a ∧
    ((verifyContent s sender f).1).contentRegistry = s.contentRegistry ∧
    ((verifyContent s sender f).1).publisherContent = s.publisherContent ∧
    ((verifyContent s sender f).1).totalRegistrations = s.totalRegistrations ∧
    ((verifyContent s sender f).1).paused = s.paused ∧
    ((verifyContent s sender f).1).owner = s.owner := by
  refine ⟨?_, ?_, ?_, ?_, ?_, ?_, ?_, ?_, ?_, ?_⟩ <;>
    simp_all [verifyContent]

theorem C3_verify_hit_effects_witness :
    (verifyContent wState 9 42).2 =
      { «exists» := true
        publisher := (wState.contentRegistry 42).publisher
        timestamp := (wState.contentRegistry 42).timestamp
        contentType := (wState.contentRegistry 42).contentType
        ipfsMetadata := (wState.contentRegistry 42).ipfsMetadata } ∧
    (((verifyContent wState 9 42).1).publisherReputations
        (wState.contentRegistry 42).publisher).verificationCount
      = (wState.publisherReputations (wState.contentRegistry 42).publisher).verificationCount + 1 ∧
    (((verifyContent wState 9 42).1).publisherReputations
        (wState.contentRegistry 42).publisher).reputationScore
      = (wState.publisherReputations (wState.contentRegistry 42).publisher).reputationScore + 5 ∧
    (((verifyContent wState 9 42).1).publisherReputations
        (wState.contentRegistry 42).publisher).totalRegistrations
      = (wState.publisherReputations (wState.contentRegistry 42).publisher).totalRegistrations ∧
    ((verifyContent wState 9 42).1).publisherReputations 2 = wState.publisherReputations 2 ∧
    ((verifyContent wState 9 42).1).contentRegistry = wState.contentRegistry ∧
    ((verifyContent wState 9 42).1).publisherContent = wState.publisherContent ∧
    ((verifyContent wState 9 42).1).totalRegistrations = wState.totalRegistrations ∧
    ((verifyContent wState 9 42).1).paused = wState.paused ∧
    ((verifyContent wState 9 42).1).owner = wState.owner :=
  C3_verify_hit_effects wState 9 42 2 rfl (by decide)

/-- C5: once a record exists for a fingerprint, no sequence of contract
transactions (Register, Verify, pause, unpause — reads are pure) ever
changes any of its fields or removes it; in particular its `exists` flag
can never fall back to `false`. -/
theorem C5_record_immutable (s : State) (ops : List Op) (f : Nat)
    (h : (s.contentRegistry f).exists = true) :
    (execTrace s ops).contentRegistry f = s.contentRegistry f :=
  registered_persists_trace s ops f h

theorem C5_record_immutable_witness :
    (execTrace wState [.verify 3 42, .pauseOp 0,
        .register 2 7 42 "image" "other", .unpauseOp 0]).contentRegistry 42
      = wState.contentRegistry 42 :=
  C5_record_immutable wState [.verify 3 42, .pauseOp 0,
    .register 2 7 42 "image" "other", .unpauseOp 0] 42 rfl

/-- C4: in any reachable state, Verify on a fingerprint whose record does
not exist returns `exists = false` with zero publisher, zero timestamp and
empty strings, and returns the state unchanged. -/
theorem C4_verify_miss (s : State) (hs : Reachable s) (sender f : Nat)
    (h : (s.contentRegistry f).exists = false) :
    verifyContent s sender f =
      (s, { «exists» := false, publisher := 0, timestamp := 0
            contentType := "", ipfsMetadata := "" }) := by
  have hempty : s.contentRegistry f = emptyContent := by
    rcases registry_exists_or_empty s hs f with h1 | h1
    · rw [h] at h1; cases h1
    · exact h1
  simp [verifyContent, hempty, emptyContent]

theorem C4_verify_miss_witness :
    verifyContent (initialState 0) 9 1 =
      (initialState 0, { «exists» := false, publisher := 0, timestamp := 0
                         contentType := "", ipfsMetadata := "" }) :=
  C4_verify_miss (initialState 0) ⟨0, [], rfl⟩ 9 1 rfl

/-- C1, counterexample to the claim as stated: after a successful
registration of fingerprint 42, a second `registerContent` with the same
fingerprint but the invalid category `"banana"` reverts with
"Invalid content type" (the `validContentType` modifier runs before the
duplicate check), not with the duplicate error — so the second call does
not fail with `DuplicateFingerprint` "regardless of the category". -/
theorem C1_counterexample :
    ((execTrace (initialState 0)
        [.register 1 5 42 "article" "ipfs://Qm123"]).contentRegistry 42).exists = true ∧
    registerContent (execTrace (initialState 0)
        [.register 1 5 42 "article" "ipfs://Qm123"]) 2 6 42 "banana" "ipfs://Qm456"
      = .error "Invalid content type" := by
  exact ⟨rfl, rfl⟩

/-- C1 amended: for a valid triple in an unpaused state where the
fingerprint is absent, Register succeeds; and after that success, any
later Register with the same fingerprint — any pointer, any caller, after
any further transactions — fails with the duplicate error, provided the
registry is not paused at the time and the supplied category is valid
(with an invalid category the call fails with the category error first,
and while paused with the paused error). -/
theorem C1_register_exactly_once (s : State) (sender ts f : Nat) (ct im : String)
    (hp : s.paused = false) (hct : validContentType ct = true) (hf : f ≠ 0)
    (habs : (s.contentRegistry f).exists = false) (him : im ≠ "") :
    registerContent s sender ts f ct im
        = .ok (registeredState s sender ts f ct im) ∧
    ∀ ops sender₂ ts₂ ct₂ im₂,
      (execTrace (registeredState s sender ts f ct im) ops).paused = false →
      validContentType ct₂ = true →
      registerContent (execTrace (registeredState s sender ts f ct im) ops)
          sender₂ ts₂ f ct₂ im₂ = .error "Content already registered" := by
  have hok : registerContent s sender ts f ct im
      = .ok (registeredState s sender ts f ct im) := by
    rw [registerContent_ok_iff]
    exact ⟨hp, hct, hf, habs, him, rfl⟩
  refine ⟨hok, fun ops sender₂ ts₂ ct₂ im₂ hp₂ hct₂ => ?_⟩
  have hreg : ((registeredState s sender ts f ct im).contentRegistry f).exists = true := by
    simp [registeredState]
  have hkeep := registered_persists_trace (registeredState s sender ts f ct im) ops f hreg
  have hex₂ : ((execTrace (registeredState s sender ts f ct im) ops).contentRegistry f).exists
      = true := by rw [hkeep]; exact hreg
  unfold registerContent
  rw [hp₂, hct₂]
  simp [hf, hex₂]

theorem C1_register_exactly_once_witness :
    registerContent (execTrace (registeredState (initialState 0) 1 5 42 "article" "ipfs://Qm123")
        [.verify 3 42]) 2 6 42 "image" "ipfs://Qm456"
      = .error "Content already registered" :=
  (C1_register_exactly_once (initialState 0) 1 5 42 "article" "ipfs://Qm123"
      rfl rfl (by decide) rfl (by decide)).2
    [.verify 3 42] 2 6 "image" "ipfs://Qm456" rfl rfl

/-- C6: while paused, Register reverts with the paused error for every
input, even otherwise-valid ones; Verify's returned data and state effect
are unaffected by the pause flag, and all view functions read identically;
unpause restores the state with the flag cleared, after which the identical
valid Register input succeeds; and pause/unpause succeed exactly for the
single owner, reverting with the owner error for everyone else. -/
theorem C6_pause_semantics (s : State) (sender ts f : Nat) (ct im : String) :
    (s.paused = true → registerContent s sender ts f ct im = .error "Contract is paused") ∧
    (∀ caller h, (verifyContent { s with paused := true } caller h).2
        = (verifyContent s caller h).2) ∧
    (∀ caller h, (verifyContent { s with paused := true } caller h).1
        = { (verifyContent s caller h).1 with paused := true }) ∧
    (∀ p, getPublisherContent { s with paused := true } p = getPublisherContent s p) ∧
    (∀ p, getPublisherReputation { s with paused := true } p = getPublisherReputation s p) ∧
    (getTotalRegistrations { s with paused := true } = getTotalRegistrations s) ∧
    (∀ h, getContentDetails { s with paused := true } h = getContentDetails s h) ∧
    (unpause s s.owner = .ok { s with paused := false }) ∧
    (pause s s.owner = .ok { s with paused := true }) ∧
    (sender ≠ s.owner → pause s sender = .error "Only owner can call this function" ∧
        unpause s sender = .error "Only owner can call this function") ∧
    (validContentType ct = true → f ≠ 0 → (s.contentRegistry f).exists = false → im ≠ "" →
      registerContent { s with paused := false } sender ts f ct im
        = .ok (registeredState { s with paused := false } sender ts f ct im)) := by
  refine ⟨fun hp => ?_, fun caller h => ?_, fun caller h => ?_, fun p => rfl, fun p => rfl,
    rfl, fun h => rfl, ?_, ?_, fun hs => ⟨?_, ?_⟩, fun hct hf habs him => ?_⟩
  · unfold registerContent; rw [hp]; rfl
  · simp [verifyContent]
  · simp only [verifyContent]; split <;> simp
  · simp [unpause]
  · simp [pause]
  · simp [pause, hs]
  · simp [unpause, hs]
  · rw [registerContent_ok_iff]
    exact ⟨rfl, hct, hf, habs, him, rfl⟩

theorem C6_pause_semantics_witness :
    registerContent (execTrace (initialState 0)
        [.register 1 5 42 "article" "ipfs://Qm123", .pauseOp 0]) 1 6 43 "article" "ipfs://QmX"
      = .error "Contract is paused" :=
  (C6_pause_semantics (execTrace (initialState 0)
      [.register 1 5 42 "article" "ipfs://Qm123", .pauseOp 0]) 1 6 43 "article" "ipfs://QmX").1 rfl


end ContentVerification

namespace FrontendSearch

/-- The fuelled logarithm agrees with `Nat.log2` whenever the fuel
bounds the argument, so `jsLog2 n = Nat.log2 n` for every
`n < 2 ^ 1100`. -/
theorem log2Fuel_eq_log2 : ∀ (fuel n : ℕ), n < 2 ^ fuel → log2Fuel fuel n = Nat.log2 n := by
  intro fuel
  induction fuel with
  | zero =>
    intro n hn
    interval_cases n
    simp [log2Fuel, Nat.log2_zero]
  | succ fuel ih =>
    intro n hn
    by_cases h2 : n < 2
    · interval_cases n
      · simp [log2Fuel, Nat.log2_zero]
      · have h1 : Nat.log2 1 < 1 := (Nat.log2_lt one_ne_zero).mpr (by norm_num)
        simp [log2Fuel]
        omega
    · have hn0 : n ≠ 0 := by omega
      have hdiv : n / 2 < 2 ^ fuel := by
        have := Nat.pow_succ 2 fuel
        omega
      have hrec : log2Fuel (fuel + 1) n = log2Fuel fuel (n / 2) + 1 := by
        simp [log2Fuel, h2]
      rw [hrec, ih (n / 2) hdiv]
      have hhalf : n / 2 ≠ 0 := by omega
      have hlo : 2 ^ Nat.log2 (n / 2) ≤ n / 2 := Nat.log2_self_le hhalf
      have hhi : n / 2 < 2 ^ (Nat.log2 (n / 2) + 1) := Nat.lt_log2_self
      have e1 : 2 ^ (Nat.log2 (n / 2) + 1) = 2 * 2 ^ Nat.log2 (n / 2) := by ring
      have e2 : 2 ^ (Nat.log2 (n / 2) + 2) = 4 * 2 ^ Nat.log2 (n / 2) := by ring
      have hub : Nat.log2 n < Nat.log2 (n / 2) + 2 := by
        rw [Nat.log2_lt hn0, e2]
        omega
      have hlb : Nat.log2 (n / 2) + 1 ≤ Nat.log2 n := by
        rw [Nat.le_log2 hn0, e1]
        omega
      omega

/-- The inline similarity computation of `searchVerifiedNews` equals the
specification's tiered policy, applied to the raw query and title. -/
theorem similarityOf_eq_specTieredScore (searchQuery title : JStr) :
    similarityOf (jsTrim (jsToLower searchQuery)) (jsToLower title)
      = specTieredScore searchQuery title := by
  unfold similarityOf specTieredScore
  by_cases h1 : jsToLower title = jsTrim (jsToLower searchQuery)
  · simp [h1]
  · simp only [h1, if_false]
    by_cases h2 : (jsIncludes (jsToLower title) (jsTrim (jsToLower searchQuery)) ||
        jsIncludes (jsTrim (jsToLower searchQuery)) (jsToLower title)) = true
    · simp [h2]
    · simp only [h2, if_false]
      by_cases h3 : ((jsSplitWs (jsTrim (jsToLower searchQuery))).filter
          (fun w => decide (3 < w.length))).length = 0
      · simp [h3]
      · have hpos : 0 < ((jsSplitWs (jsTrim (jsToLower searchQuery))).filter
            (fun w => decide (3 < w.length))).length := Nat.pos_of_ne_zero h3
        simp only [h3, if_false, hpos, if_true]

end FrontendSearch

namespace VerificationPortal

/-- C8: in both the text and the image path of `handleSearch`, the fuzzy
search runs exactly when the exact registry lookup missed (`exists =
false`) — and, on the image path, only when news text was extracted — so
an exact hit always short-circuits the fuzzy engine: whenever the lookup
returns `exists = true`, no fuzzy search is performed. -/
theorem C8_exact_match_short_circuits (bytes32Hash : FrontendSearch.JStr)
    (exactMatch blockchainResult : ExactMatchResult)
    (newsContent searchQuery : FrontendSearch.JStr)
    (fuzzy : FrontendSearch.JStr → FrontendSearch.SearchOutcome) :
    (handleSearchText bytes32Hash exactMatch fuzzy searchQuery).ranFuzzySearch
        = !exactMatch.exists ∧
    (handleSearchImage bytes32Hash blockchainResult newsContent fuzzy).ranFuzzySearch
        = (!blockchainResult.exists && !newsContent.isEmpty) := by
  constructor
  · cases hE : exactMatch.exists <;> simp [handleSearchText, hE]
  · cases hB : blockchainResult.exists <;> simp [handleSearchImage, hB]

theorem C8_exact_match_short_circuits_witness :
    (handleSearchText "0xh".toList hitResult noFuzzy "q".toList).ranFuzzySearch
      = !hitResult.exists :=
  (C8_exact_match_short_circuits "0xh".toList hitResult hitResult
    "q".toList "q".toList noFuzzy).1

end VerificationPortal

namespace FrontendSearch

/-- C9: the off-chain read path degrades to empty results instead of
throwing: when the awaited registration fetch inside `searchVerifiedNews`
raises, the catch returns `found = false` with no matches, and when
`getContract` yields no contract, `getPublisherContent` returns the empty
list.  (Both model functions are total, so no other outcome exists.) -/
theorem C9_reads_degrade :
    (∀ (fetch : JStr → Option IpfsMeta) (searchQuery : JStr) (msg : String),
      searchVerifiedNews (.error msg) fetch searchQuery
        = { found := false, «matches» := [] }) ∧
    (∀ publisherAddress : JStr, getPublisherContent none publisherAddress = []) :=
  ⟨fun _ _ _ => rfl, fun _ => rfl⟩

end FrontendSearch

namespace HashUtils

open FrontendSearch (JStr)

/-- C10: `hexToBytes32` always returns `0x` followed by exactly 64
characters (66 in total), and on a 64-character input without a `0x`
prefix, `bytes32ToHex` inverts it. -/
theorem C10_hexToBytes32_shape_roundtrip (hex h : JStr)
    (hlen : h.length = 64) (hpre : "0x".toList.isPrefixOf h = false) :
    (hexToBytes32 hex).length = 66 ∧
    (hexToBytes32 hex).take 2 = "0x".toList ∧
    ((hexToBytes32 hex).drop 2).length = 64 ∧
    bytes32ToHex (hexToBytes32 h) = h := by
  have hx : (hexToBytes32 hex).length = 66 := by
    have h2 : ("0x".toList).length = 2 := rfl
    simp only [hexToBytes32, jsPadStart, List.length_append, List.length_take,
      List.length_replicate, h2]
    omega
  refine ⟨hx, rfl, ?_, ?_⟩
  · simp [List.length_drop, hx]
  · have hh : hexToBytes32 h = "0x".toList ++ h := by
      simp only [hexToBytes32, jsPadStart, hpre, Bool.false_eq_true, if_false, hlen]
      simp [hlen]
    rw [hh, bytes32ToHex]
    have hp : ("0x".toList).isPrefixOf ("0x".toList ++ h) = true := by
      simp [List.isPrefixOf_iff_prefix]
    rw [hp]
    simp

theorem C10_hexToBytes32_shape_roundtrip_witness :
    (hexToBytes32 "abc".toList).length = 66 ∧
    (hexToBytes32 "abc".toList).take 2 = "0x".toList ∧
    ((hexToBytes32 "abc".toList).drop 2).length = 64 ∧
    bytes32ToHex (hexToBytes32 (List.replicate 64 'a')) = List.replicate 64 'a' :=
  C10_hexToBytes32_shape_roundtrip "abc".toList (List.replicate 64 'a')
    (by simp) (by decide)

end HashUtils

namespace FrontendSearch

/-- Membership in a stable descending insertion. -/
theorem mem_insertDesc (x a : SearchMatch) (l : List SearchMatch) :
    a ∈ insertDesc x l ↔ a = x ∨ a ∈ l := by
  induction l with
  | nil => simp [insertDesc]
  | cons y ys ih =>
    unfold insertDesc
    split
    · simp [List.mem_cons]
    · simp only [List.mem_cons, ih]
      tauto

/-- `sortDesc` permutes nothing in or out. -/
theorem mem_sortDesc (a : SearchMatch) (l : List SearchMatch) :
    a ∈ sortDesc l ↔ a ∈ l := by
  induction l with
  | nil => simp [sortDesc]
  | cons x xs ih => simp [sortDesc, mem_insertDesc, ih]

/-- Inserting into a descending-sorted list keeps it sorted. -/
theorem insertDesc_sorted (x : SearchMatch) (l : List SearchMatch)
    (hl : l.Sorted (fun a b => b.similarity ≤ a.similarity)) :
    (insertDesc x l).Sorted (fun a b => b.similarity ≤ a.similarity) := by
  induction l with
  | nil => simp [insertDesc]
  | cons y ys ih =>
    rw [List.sorted_cons] at hl
    obtain ⟨hy, hys⟩ := hl
    unfold insertDesc
    split
    · next hle =>
      rw [List.sorted_cons]
      refine ⟨fun b hb => ?_, List.sorted_cons.mpr ⟨hy, hys⟩⟩
      rcases List.mem_cons.mp hb with rfl | hb'
      · exact hle
      · exact le_trans (hy b hb') hle
    · next hgt =>
      rw [List.sorted_cons]
      refine ⟨fun b hb => ?_, ih hys⟩
      rcases (mem_insertDesc x b ys).mp hb with rfl | hb'
      · omega
      · exact hy b hb'

/-- The insertion sort by descending similarity is sorted. -/
theorem sortDesc_sorted (l : List SearchMatch) :
    (sortDesc l).Sorted (fun a b => b.similarity ≤ a.similarity) := by
  induction l with
  | nil => simp [sortDesc]
  | cons x xs ih => exact insertDesc_sorted x (sortDesc xs) ih

/-- The push-into-`matches` loop of `searchVerifiedNews`, as a
`filterMap`. -/
theorem foldl_searchCollect (searchLower : JStr)
    (l : List (Registration × Option IpfsMeta)) (acc : List SearchMatch) :
    l.foldl (fun acc rm =>
      match rm.2 with
      | none => acc
      | some meta =>
        if meta.title.isEmpty then acc
        else
          let titleLower := jsToLower meta.title
          let similarity := similarityOf searchLower titleLower
          if 50 ≤ similarity then acc ++ [mkMatch rm.1 meta similarity] else acc) acc
      = acc ++ l.filterMap (fun rm =>
          match rm.2 with
          | none => none
          | some meta =>
            if meta.title.isEmpty then none
            else
              let similarity := similarityOf searchLower (jsToLower meta.title)
              if 50 ≤ similarity then some (mkMatch rm.1 meta similarity) else none) := by
  induction l generalizing acc with
  | nil => simp
  | cons x xs ih =>
    obtain ⟨reg, md⟩ := x
    simp only [List.foldl_cons, List.filterMap_cons]
    cases md with
    | none => simpa using ih acc
    | some meta =>
      by_cases ht : meta.title.isEmpty
      · simpa [ht] using ih acc
      · by_cases hs : 50 ≤ similarityOf searchLower (jsToLower meta.title)
        · simp only [ht, hs, Bool.false_eq_true, if_false, if_true]
          rw [ih]
          simp
        · simpa [ht, hs] using ih acc

/-- `searchVerifiedNewsBody` computed through the specification's
candidate list: score every recent article candidate with the tiered
policy, keep the ones at 50 or above, sort descending, take 10; `found`
says whether any candidate survived. -/
theorem searchBody_eq_spec (fetch : JStr → Option IpfsMeta)
    (registrations : List Registration) (searchQuery : JStr) :
    searchVerifiedNewsBody fetch registrations searchQuery
      = { found := decide (0 < (specCandidates fetch registrations searchQuery).length)
          «matches» := (sortDesc (specCandidates fetch registrations searchQuery)).take 10 } := by
  have hfun : (fun reg : Registration =>
      (match fetch reg.ipfsMetadata with
        | none => none
        | some meta =>
          if meta.title.isEmpty then none
          else
            let similarity := similarityOf (jsTrim (jsToLower searchQuery)) (jsToLower meta.title)
            if 50 ≤ similarity then some (mkMatch reg meta similarity) else none))
      = (fun reg : Registration =>
        (match fetch reg.ipfsMetadata with
          | none => none
          | some meta =>
            if meta.title.isEmpty then none
            else
              let sc := specTieredScore searchQuery meta.title
              if 50 ≤ sc then some (mkMatch reg meta sc) else none)) := by
    funext reg
    cases fetch reg.ipfsMetadata with
    | none => rfl
    | some meta => simp only [similarityOf_eq_specTieredScore]
  simp only [searchVerifiedNewsBody, foldl_searchCollect, List.nil_append,
    List.filterMap_map, specCandidates]
  simp only [Function.comp_def]
  rw [hfun]

/-- Every candidate the specification's list keeps scored at least 50. -/
theorem specCandidates_sim_ge_50 (fetch : JStr → Option IpfsMeta)
    (registrations : List Registration) (searchQuery : JStr) (m : SearchMatch)
    (hm : m ∈ specCandidates fetch registrations searchQuery) : 50 ≤ m.similarity := by
  unfold specCandidates at hm
  obtain ⟨reg, hreg, hsome⟩ := List.mem_filterMap.mp hm
  cases hf : fetch reg.ipfsMetadata with
  | none => rw [hf] at hsome; cases hsome
  | some meta =>
    rw [hf] at hsome
    by_cases ht : meta.title.isEmpty
    · simp [ht] at hsome
    · by_cases hs : 50 ≤ specTieredScore searchQuery meta.title
      · simp only [ht, Bool.false_eq_true, if_false, hs, if_true] at hsome
        obtain rfl := Option.some.inj hsome
        exact hs
      · simp [ht, hs] at hsome

end FrontendSearch

namespace FrontendSearch

/-- C7, counterexample to the claim as stated, on two counts.
First, the engine trims the query but not the title: for query `"hello"`
and stored title `"hello "` (trailing space) the trimmed,
case-insensitive forms are equal — the claim's first tier demands score
100 — yet the code falls to the containment tier and returns
similarity 80.  Second, the claim's third-tier formula
`round(100 × matched / considered)` is not what the code computes: for
23 matched out of 40 considered query words (any 40-word query matching
23 title words reaches this call) the double-precision evaluation
`Math.round((23 / 40) * 100)` yields 57 — the doubles land on
57.49999999999999289… — while the exact value 57.5 (the dyadic `115/2`)
rounds to 58 under the claim's round-half-up. -/
theorem C7_counterexample :
    jsTrim (jsToLower "hello".toList) = jsTrim (jsToLower "hello ".toList) ∧
    ((searchVerifiedNewsBody oneFetch [oneReg] "hello".toList).«matches»).map
        (fun m => m.similarity) = [80] ∧
    jsRoundRatio100 23 40 = 57 ∧
    jsMathRoundDyadic 115 1 = 58 := by
  refine ⟨by decide, by decide, by decide, by decide⟩

/-- C7 amended: the engine scores each recent article candidate with a
retrievable non-empty title by the tiered policy — exact match of the
lowercased title against the lowercased, trimmed query scores 100 (the
title itself is not trimmed); otherwise containment either way scores 80;
otherwise `Math.round((matched / considered) * 100)` over the query
words longer than 3 characters, evaluated in binary64 double precision
(0 when no query word qualifies) — keeps exactly the candidates scoring
≥ 50, sorts them by descending score (stably) and returns at most the
top 10. -/
theorem C7_tiered_scoring (fetch : JStr → Option IpfsMeta)
    (registrations : List Registration) (searchQuery : JStr) :
    (searchVerifiedNewsBody fetch registrations searchQuery).«matches»
        = (sortDesc (specCandidates fetch registrations searchQuery)).take 10 ∧
    ((searchVerifiedNewsBody fetch registrations searchQuery).«matches»).Sorted
        (fun a b => b.similarity ≤ a.similarity) ∧
    ((searchVerifiedNewsBody fetch registrations searchQuery).«matches»).length ≤ 10 ∧
    ∀ m ∈ (searchVerifiedNewsBody fetch registrations searchQuery).«matches»,
      50 ≤ m.similarity := by
  rw [searchBody_eq_spec fetch registrations searchQuery]
  refine ⟨rfl, ?_, ?_, fun m hm => ?_⟩
  · exact (sortDesc_sorted (specCandidates fetch registrations searchQuery)).sublist
      (List.take_sublist 10 _)
  · exact List.length_take_le 10 _
  · have hm' : m ∈ sortDesc (specCandidates fetch registrations searchQuery) :=
      List.mem_of_mem_take hm
    exact specCandidates_sim_ge_50 fetch registrations searchQuery m
      ((mem_sortDesc m _).mp hm')

theorem C7_tiered_scoring_witness :
    (searchVerifiedNewsBody oneFetch [oneReg] "hello world".toList).«matches»
      = (sortDesc (specCandidates oneFetch [oneReg] "hello world".toList)).take 10 :=
  (C7_tiered_scoring oneFetch [oneReg] "hello world".toList).1

end FrontendSearch
